import Mathlib

/-!
Verification development for the projection-and-lineup engine of
`robust_ml_system.py` (class `RobustMLStartSit`).

The Python code is shallowly embedded:

* Python dictionaries with string keys become association lists
  (`List (String × α)`) with first-match lookup (`getKey`) and
  replace-or-append update (`setKey`), matching CPython dict semantics
  (unique keys, insertion order preserved, update in place).
* Python floats are modelled as exact rationals (`ℚ`); the sentinel
  `float(\x27inf\x27)` recorded on a failed fit gets its own constructor
  (`PyFloat.inf`).
* The sklearn estimators and scalers are opaque third-party objects; they
  enter the embedding as oracle functions (`MLOracle`, `TrainOracle`)
  whose `Except` result models a raised Python exception.  The registry
  state the code itself maintains (`model_performance`,
  `feature_importance`, `is_trained`) is embedded explicitly (`MLState`).
* A Python function that can raise an uncaught exception is embedded with
  result type `Except PyErr _`; the only uncaught raise site in the
  embedded code is the `player_data[\x27position\x27]` subscript
  (KeyError) in `predict_player_projection` and `create_ml_enhanced_lineup`.
-/

namespace FFA

/-- A Python value as it occurs in the player records of the source:
a float (modelled exactly as a rational) or a string. -/
inductive PyVal where
  | num (q : ℚ)
  | str (s : String)
deriving DecidableEq

/-- A Python float that may be the sentinel `float(\x27inf\x27)`. -/
inductive PyFloat where
  | fin (q : ℚ)
  | inf
deriving DecidableEq

/-- An uncaught Python exception of the embedded code (only `KeyError`
can escape the embedded functions). -/
inductive PyErr where
  | keyError (k : String)
deriving DecidableEq

/-- A Python dict with string keys: association list, first match wins. -/
abbrev Dict := List (String × PyVal)

/-- `d[k]` lookup / `k in d` test, returning `none` when absent. -/
def getKey {α : Type} : List (String × α) → String → Option α
  | [], _ => none
  | (k2, v) :: rest, k => if k2 = k then some v else getKey rest k

/-- `d.get(k, default)`. -/
def getD (d : Dict) (k : String) (default : PyVal) : PyVal :=
  (getKey d k).getD default

/-- `d[k] = v` on a Python dict: replace the value in place when the key
is present (keeping its position), append otherwise. -/
def setKey {α : Type} : List (String × α) → String → α → List (String × α)
  | [], k, v => [(k, v)]
  | (k2, v2) :: rest, k, v =>
    if k2 = k then (k2, v) :: rest else (k2, v2) :: setKey rest k v

/-- The rational 0.5 (written so that kernel reduction never needs
`Nat.gcd`). -/
def half : ℚ := ⟨1, 2, by norm_num, by norm_num⟩

/-- The rational 0.7. -/
def sevenTenths : ℚ := ⟨7, 10, by norm_num, by norm_num⟩

/-- One per-position entry of `self.model_performance`: the dict
`{mse, r2, samples, trained}` written by `train_models`. -/
structure PerfRecord where
  mse : PyFloat
  r2 : ℚ
  samples : ℕ
  trained : Bool
deriving DecidableEq

/-- The mutable registry state of a `RobustMLStartSit` instance that the
embedded methods read or write: `self.model_performance`,
`self.feature_importance` and `self.is_trained`.  The estimator and
scaler objects themselves are opaque and live in the oracles. -/
structure MLState where
  model_performance : List (String × PerfRecord)
  feature_importance : List (String × List (String × ℚ))
  is_trained : Bool
deriving DecidableEq

/-- Behaviour of the opaque sklearn objects during prediction:
`scalerTransform pos xs` is `self.scalers[pos].transform` on the feature
row `xs`, `modelPredict pos xs` is `self.models[pos].predict(...)[0]`,
and `modelName pos` is `type(self.models[pos]).__name__`.  An `Except.error`
models a raised exception (caught by the `try` in the source). -/
structure MLOracle where
  scalerTransform : String → List PyVal → Except Unit (List ℚ)
  modelPredict : String → List ℚ → Except Unit ℚ
  modelName : String → String

/-- The feature row built at the top of the `try` block of
`predict_player_projection` (source lines 208–217): a fixed-order
8-element vector with the documented per-field defaults. -/
def buildFeatures (player_data : Dict) : List PyVal :=
  [ getD player_data "base_proj" (PyVal.num 0),
    getD player_data "weather_impact" (PyVal.num 0),
    getD player_data "home_advantage" (PyVal.num 0),
    getD player_data "spread" (PyVal.num 0),
    getD player_data "over_under" (PyVal.num 45),
    getD player_data "def_rank" (PyVal.num 16),
    getD player_data "recent_form" (PyVal.num half),
    getD player_data "snap_share" (PyVal.num sevenTenths) ]

/-- The dict literal `{**player_data, \x27ml_projection\x27: proj,
\x27confidence\x27: conf, \x27model_used\x27: mu}` used by every return
of `predict_player_projection`. -/
def addPrediction (player_data : Dict) (proj : PyVal) (conf : ℚ) (mu : String) : Dict :=
  setKey (setKey (setKey player_data "ml_projection" proj) "confidence" (PyVal.num conf))
    "model_used" (PyVal.str mu)

/-- The body of `predict_player_projection` after the
`player_data[\x27position\x27]` subscript succeeded (source lines
186–242).  Total: every failure past that point is caught by the
method's `try`/`except`. -/
def predictPos (st : MLState) (o : MLOracle) (player_data : Dict) (posVal : PyVal) :
    Dict :=
  match posVal with
  | PyVal.num _ =>
    -- a non-string position is never a key of `model_performance`,
    -- so `position not in self.model_performance` holds
    addPrediction player_data (getD player_data "base_proj" (PyVal.num 0)) half "fallback"
  | PyVal.str pos =>
    match st.is_trained, getKey st.model_performance pos with
    | false, _ =>
      addPrediction player_data (getD player_data "base_proj" (PyVal.num 0)) half "fallback"
    | true, none =>
      addPrediction player_data (getD player_data "base_proj" (PyVal.num 0)) half "fallback"
    | true, some perf =>
      if perf.trained = false then
        addPrediction player_data (getD player_data "base_proj" (PyVal.num 0)) half "fallback"
      else
        match o.scalerTransform pos (buildFeatures player_data) with
        | Except.error _ =>
          addPrediction player_data (getD player_data "base_proj" (PyVal.num 0)) half
            "error_fallback"
        | Except.ok scaled =>
          match o.modelPredict pos scaled with
          | Except.error _ =>
            addPrediction player_data (getD player_data "base_proj" (PyVal.num 0)) half
              "error_fallback"
          | Except.ok v =>
            addPrediction player_data (PyVal.num v) perf.r2 (o.modelName pos)

/-- Embedding of `RobustMLStartSit.predict_player_projection`
(source lines 183–242).  The subscript `player_data[\x27position\x27]`
is the one statement outside any `try`, hence the `Except` result;
every other failure is caught inside the method. -/
def predict_player_projection (st : MLState) (o : MLOracle) (player_data : Dict) :
    Except PyErr Dict :=
  match getKey player_data "position" with
  | none => Except.error (PyErr.keyError "position")
  | some posVal => Except.ok (predictPos st o player_data posVal)

/-- One row of the labeled training dataset: its position column and the
data consumed by a per-position fit (the 8 extracted feature columns
and the `actual` label). -/
structure Row where
  position : String
  features : List ℚ
  actual : ℚ
deriving DecidableEq

/-- Behaviour of the opaque sklearn objects during one position's fit
(the whole `try` body of `train_models`, source lines 141–169):
`fit pos rows` covers `fit_transform`, `fit`, `predict`,
`mean_squared_error` and `r2_score` and yields the in-sample
`(mse, r2)` pair, or `Except.error` for a raised exception;
`featImp pos rows` is the `feature_importances_` dict when the fitted
estimator has that attribute (`none` otherwise). -/
structure TrainOracle where
  fit : String → List Row → Except Unit (ℚ × ℚ)
  featImp : String → List Row → Option (List (String × ℚ))

/-- `self.models.keys()` — the fixed position categories, in dict
insertion order. -/
def positionsList : List String := ["QB", "RB", "WR", "TE", "K", "DST"]

/-- One iteration of the training loop of `train_models` (source lines
131–178) for a single `position`: filter the rows, skip (`continue`)
below 10 samples, otherwise record the fit outcome. -/
def trainPos (df : List Row) (t : TrainOracle) (st : MLState) (position : String) :
    MLState :=
  let pos_data := df.filter (fun r => r.position = position)
  if pos_data.length < 10 then st
  else
    match t.fit position pos_data with
    | Except.ok (mse, r2) =>
      let st2 : MLState :=
        MLState.mk (setKey st.model_performance position
          (PerfRecord.mk (PyFloat.fin mse) r2 pos_data.length true))
          st.feature_importance st.is_trained
      match t.featImp position pos_data with
      | some imp =>
        MLState.mk st2.model_performance (setKey st2.feature_importance position imp)
          st2.is_trained
      | none => st2
    | Except.error _ =>
      MLState.mk (setKey st.model_performance position
        (PerfRecord.mk PyFloat.inf 0 pos_data.length false))
        st.feature_importance st.is_trained

/-- Embedding of `RobustMLStartSit.train_models` (source lines 123–181).
The dataset `df` is the frame produced by
`create_comprehensive_training_data` in the source; since that method
draws pseudo-random rows, the dataset enters the embedding as a
parameter.  After the loop the method sets `self.is_trained = True`. -/
def train_models (st : MLState) (df : List Row) (t : TrainOracle) : MLState :=
  let st2 := positionsList.foldl (trainPos df t) st
  MLState.mk st2.model_performance st2.feature_importance true

/-- The sort key of `enhanced_players.sort` (source line 259):
`x.get(\x27ml_projection\x27, x.get(\x27base_proj\x27, 0))`.  Every
enhanced player carries a numeric estimate (§3 of the specification's
data model makes projections scalars; on a non-numeric estimate the
source comparison would raise instead), so the non-numeric branches are
mapped to 0. -/
def mlKey (p : Dict) : ℚ :=
  match getKey p "ml_projection" with
  | some (PyVal.num q) => q
  | some (PyVal.str _) => 0
  | none =>
    match getKey p "base_proj" with
    | some (PyVal.num q) => q
    | _ => 0

/-- Insert `x` into a descending-sorted list, after every element whose
key is ≥ its own — the insertion step of a stable descending sort. -/
def insertDesc (x : Dict) : List Dict → List Dict
  | [] => [x]
  | y :: ys => if mlKey y < mlKey x then x :: y :: ys else y :: insertDesc x ys

/-- `list.sort(key=..., reverse=True)` of the source: a stable
descending sort by `mlKey` (insertion sort, processing the input left to
right so that equal keys keep input order). -/
def sortDesc (l : List Dict) : List Dict :=
  l.foldl (fun acc x => insertDesc x acc) []

/-- The `optimal_lineup` dict (source lines 262–268), one field per
slot, in dict insertion order. -/
structure Lineup where
  qb : List Dict
  rb : List Dict
  wr : List Dict
  te : List Dict
  flex : List Dict
deriving DecidableEq

def emptyLineup : Lineup := Lineup.mk [] [] [] [] []

/-- One iteration of the slot-filling loop (source lines 271–283): the
`if/elif` chain appending the player to the first matching slot with
free capacity.  `player[\x27position\x27]` may raise `KeyError`. -/
def fillOne (lineup : Lineup) (p : Dict) : Except PyErr Lineup :=
  match getKey p "position" with
  | none => Except.error (PyErr.keyError "position")
  | some pos =>
    if pos = PyVal.str "QB" ∧ lineup.qb.length < 1 then
      Except.ok (Lineup.mk (lineup.qb ++ [p]) lineup.rb lineup.wr lineup.te lineup.flex)
    else if pos = PyVal.str "RB" ∧ lineup.rb.length < 2 then
      Except.ok (Lineup.mk lineup.qb (lineup.rb ++ [p]) lineup.wr lineup.te lineup.flex)
    else if pos = PyVal.str "WR" ∧ lineup.wr.length < 2 then
      Except.ok (Lineup.mk lineup.qb lineup.rb (lineup.wr ++ [p]) lineup.te lineup.flex)
    else if pos = PyVal.str "TE" ∧ lineup.te.length < 1 then
      Except.ok (Lineup.mk lineup.qb lineup.rb lineup.wr (lineup.te ++ [p]) lineup.flex)
    else if (pos = PyVal.str "RB" ∨ pos = PyVal.str "WR" ∨ pos = PyVal.str "TE")
        ∧ lineup.flex.length < 1 then
      Except.ok (Lineup.mk lineup.qb lineup.rb lineup.wr lineup.te (lineup.flex ++ [p]))
    else
      Except.ok lineup

/-- The whole slot-filling loop over the sorted players. -/
def fillAll : Lineup → List Dict → Except PyErr Lineup
  | lineup, [] => Except.ok lineup
  | lineup, p :: ps =>
    match fillOne lineup p with
    | Except.error e => Except.error e
    | Except.ok lineup2 => fillAll lineup2 ps

/-- The players assigned to slots, in the iteration order of the
`optimal_lineup` dict (source lines 287–289). -/
def assigned (lineup : Lineup) : List Dict :=
  lineup.qb ++ lineup.rb ++ lineup.wr ++ lineup.te ++ lineup.flex

/-- `total_points` accumulation (source lines 286–289). -/
def totalPoints (lineup : Lineup) : ℚ :=
  (assigned lineup).foldl (fun acc p => acc + mlKey p) 0

/-- The loop enhancing each player via `predict_player_projection`
(source lines 253–256), in input order. -/
def enhanceAll (st : MLState) (o : MLOracle) : List Dict → Except PyErr (List Dict)
  | [] => Except.ok []
  | p :: ps =>
    match predict_player_projection st o p with
    | Except.error e => Except.error e
    | Except.ok e =>
      match enhanceAll st o ps with
      | Except.error e2 => Except.error e2
      | Except.ok es => Except.ok (e :: es)

/-- The result dict of `create_ml_enhanced_lineup`
(source lines 291–297). -/
structure LineupResult where
  optimal_lineup : Lineup
  total_projected_points : ℚ
  model_performance : List (String × PerfRecord)
  feature_importance : List (String × List (String × ℚ))
  enhanced_players : List Dict
deriving DecidableEq

/-- Embedding of `RobustMLStartSit.create_ml_enhanced_lineup`
(source lines 244–297): train once when untrained, enhance every
player, sort in place (so the returned `enhanced_players` list is the
sorted one), fill slots, total up. -/
def create_ml_enhanced_lineup (st : MLState) (df : List Row) (t : TrainOracle)
    (o : MLOracle) (players : List Dict) : Except PyErr LineupResult :=
  let st2 := if st.is_trained then st else train_models st df t
  match enhanceAll st2 o players with
  | Except.error e => Except.error e
  | Except.ok enhanced =>
    let sortedPlayers := sortDesc enhanced
    match fillAll emptyLineup sortedPlayers with
    | Except.error e => Except.error e
    | Except.ok lineup =>
      Except.ok (LineupResult.mk lineup (totalPoints lineup) st2.model_performance
        st2.feature_importance sortedPlayers)

/-- The assignment rule exactly as the specification words it (§4.5):
each player goes to the first slot of its position category's priority
row that still has free capacity — QB: primary only (cap 1); RB:
ground-game slot (cap 2) then flex (cap 1); WR: receiver slot (cap 2)
then flex; TE: tight-end slot (cap 1) then flex; no eligible slot with
capacity: left unassigned. -/
def specFill (lineup : Lineup) (p : Dict) : Lineup :=
  if getKey p "position" = some (PyVal.str "QB") then
    if lineup.qb.length < 1 then
      Lineup.mk (lineup.qb ++ [p]) lineup.rb lineup.wr lineup.te lineup.flex
    else lineup
  else if getKey p "position" = some (PyVal.str "RB") then
    if lineup.rb.length < 2 then
      Lineup.mk lineup.qb (lineup.rb ++ [p]) lineup.wr lineup.te lineup.flex
    else if lineup.flex.length < 1 then
      Lineup.mk lineup.qb lineup.rb lineup.wr lineup.te (lineup.flex ++ [p])
    else lineup
  else if getKey p "position" = some (PyVal.str "WR") then
    if lineup.wr.length < 2 then
      Lineup.mk lineup.qb lineup.rb (lineup.wr ++ [p]) lineup.te lineup.flex
    else if lineup.flex.length < 1 then
      Lineup.mk lineup.qb lineup.rb lineup.wr lineup.te (lineup.flex ++ [p])
    else lineup
  else if getKey p "position" = some (PyVal.str "TE") then
    if lineup.te.length < 1 then
      Lineup.mk lineup.qb lineup.rb lineup.wr (lineup.te ++ [p]) lineup.flex
    else if lineup.flex.length < 1 then
      Lineup.mk lineup.qb lineup.rb lineup.wr lineup.te (lineup.flex ++ [p])
    else lineup
  else lineup

/-- Whether an embedded call returned normally (no uncaught exception). -/
def isOkE {ε α : Type} : Except ε α → Bool
  | Except.ok _ => true
  | Except.error _ => false

/-- A concrete oracle used by witnesses: scaling and predicting succeed
trivially. -/
def trivOracle : MLOracle :=
  MLOracle.mk (fun _ _ => Except.ok []) (fun _ _ => Except.ok 0) (fun _ => "Model")

/-- A concrete oracle used by witnesses: the scaler raises on every
input. -/
def failScalerOracle : MLOracle :=
  MLOracle.mk (fun _ _ => Except.error ()) (fun _ _ => Except.ok 0) (fun _ => "Model")

theorem getKey_setKey {α : Type} (d : List (String × α)) (k k2 : String) (v : α) :
    getKey (setKey d k v) k2 = if k = k2 then some v else getKey d k2 := by
  induction d with
  | nil => simp [setKey, getKey]
  | cons hd tl ih =>
    obtain ⟨k3, v3⟩ := hd
    by_cases h3 : k3 = k
    · subst h3
      simp only [setKey, if_pos rfl, getKey]
      split_ifs with h2
      · subst h2; simp [getKey]
      · simp [getKey, h2]
    · simp only [setKey, if_neg h3, getKey]
      split_ifs with h2 h4 h4
      · subst h2; exact absurd rfl (by subst h4; exact h3)
      · rfl
      · subst h4; simp [ih, if_neg h2]
      · simp [ih, if_neg h4]

theorem getKey_addPrediction_ml (p : Dict) (proj : PyVal) (conf : ℚ) (mu : String) :
    getKey (addPrediction p proj conf mu) "ml_projection" = some proj := by
  simp [addPrediction, getKey_setKey]

theorem getKey_addPrediction_conf (p : Dict) (proj : PyVal) (conf : ℚ) (mu : String) :
    getKey (addPrediction p proj conf mu) "confidence" = some (PyVal.num conf) := by
  simp [addPrediction, getKey_setKey]

theorem getKey_addPrediction_used (p : Dict) (proj : PyVal) (conf : ℚ) (mu : String) :
    getKey (addPrediction p proj conf mu) "model_used" = some (PyVal.str mu) := by
  simp [addPrediction, getKey_setKey]

theorem getKey_addPrediction_other (p : Dict) (proj : PyVal) (conf : ℚ) (mu : String)
    (k : String) (h1 : k ≠ "ml_projection") (h2 : k ≠ "confidence")
    (h3 : k ≠ "model_used") :
    getKey (addPrediction p proj conf mu) k = getKey p k := by
  simp [addPrediction, getKey_setKey, (Ne.symm h1 : _), (Ne.symm h2 : _), (Ne.symm h3 : _)]

/-- Shared helper: the predictor on a dict holding a `position` key
returns normally with the total body's result. -/
theorem predict_eq_of_pos (st : MLState) (o : MLOracle) (p : Dict) (posVal : PyVal)
    (hpos : getKey p "position" = some posVal) :
    predict_player_projection st o p = Except.ok (predictPos st o p posVal) := by
  unfold predict_player_projection
  rw [hpos]

/-- Shared helper: under any of the three structural-fallback conditions
the predictor body returns the fallback dict. -/
theorem predictPos_fallback (st : MLState) (o : MLOracle) (p : Dict) (pos : String)
    (hfb : st.is_trained = false ∨ getKey st.model_performance pos = none
      ∨ ∃ perf, getKey st.model_performance pos = some perf ∧ perf.trained = false) :
    predictPos st o p (PyVal.str pos) =
      addPrediction p (getD p "base_proj" (PyVal.num 0)) half "fallback" := by
  simp only [predictPos]
  rcases hfb with h | h | ⟨perf, hperf, htr⟩
  · rw [h]
  · cases hT : st.is_trained
    · rfl
    · rw [h]
  · cases hT : st.is_trained
    · rfl
    · rw [hperf]
      simp [htr]

/-- Shared helper: the inference branch when the scaler raises. -/
theorem predictPos_errfallback_scaler (st : MLState) (o : MLOracle) (p : Dict)
    (pos : String) (perf : PerfRecord) (e : Unit)
    (hT : st.is_trained = true)
    (hperf : getKey st.model_performance pos = some perf)
    (htr : perf.trained = true)
    (hsc : o.scalerTransform pos (buildFeatures p) = Except.error e) :
    predictPos st o p (PyVal.str pos) =
      addPrediction p (getD p "base_proj" (PyVal.num 0)) half "error_fallback" := by
  simp only [predictPos]
  rw [hT, hperf]
  simp [htr, hsc]

/-- Shared helper: the inference branch when the model raises. -/
theorem predictPos_errfallback_model (st : MLState) (o : MLOracle) (p : Dict)
    (pos : String) (perf : PerfRecord) (fs : List ℚ) (e : Unit)
    (hT : st.is_trained = true)
    (hperf : getKey st.model_performance pos = some perf)
    (htr : perf.trained = true)
    (hsc : o.scalerTransform pos (buildFeatures p) = Except.ok fs)
    (hmp : o.modelPredict pos fs = Except.error e) :
    predictPos st o p (PyVal.str pos) =
      addPrediction p (getD p "base_proj" (PyVal.num 0)) half "error_fallback" := by
  simp only [predictPos]
  rw [hT, hperf]
  simp [htr, hsc, hmp]

/-- Shared helper: the successful model path. -/
theorem predictPos_model (st : MLState) (o : MLOracle) (p : Dict)
    (pos : String) (perf : PerfRecord) (fs : List ℚ) (v : ℚ)
    (hT : st.is_trained = true)
    (hperf : getKey st.model_performance pos = some perf)
    (htr : perf.trained = true)
    (hsc : o.scalerTransform pos (buildFeatures p) = Except.ok fs)
    (hmp : o.modelPredict pos fs = Except.ok v) :
    predictPos st o p (PyVal.str pos) =
      addPrediction p (PyVal.num v) perf.r2 (o.modelName pos) := by
  simp only [predictPos]
  rw [hT, hperf]
  simp [htr, hsc, hmp]

/-- Shared helper: every result of the predictor body is the input dict
extended by the three prediction keys. -/
theorem predictPos_shape (st : MLState) (o : MLOracle) (p : Dict) (posVal : PyVal) :
    ∃ proj conf mu, predictPos st o p posVal = addPrediction p proj conf mu := by
  cases posVal with
  | num q => exact ⟨_, _, _, rfl⟩
  | str pos =>
    cases hT : st.is_trained with
    | false => exact ⟨_, _, _, predictPos_fallback st o p pos (Or.inl hT)⟩
    | true =>
      cases hperf : getKey st.model_performance pos with
      | none => exact ⟨_, _, _, predictPos_fallback st o p pos (Or.inr (Or.inl hperf))⟩
      | some perf =>
        cases htr : perf.trained with
        | false =>
          exact ⟨_, _, _, predictPos_fallback st o p pos
            (Or.inr (Or.inr ⟨perf, hperf, htr⟩))⟩
        | true =>
          cases hsc : o.scalerTransform pos (buildFeatures p) with
          | error e =>
            exact ⟨_, _, _, predictPos_errfallback_scaler st o p pos perf e hT hperf htr hsc⟩
          | ok fs =>
            cases hmp : o.modelPredict pos fs with
            | error e =>
              exact ⟨_, _, _,
                predictPos_errfallback_model st o p pos perf fs e hT hperf htr hsc hmp⟩
            | ok v =>
              exact ⟨_, _, _, predictPos_model st o p pos perf fs v hT hperf htr hsc hmp⟩

/-- Shared helper: the predictor raises iff the input has no
`position` key. -/
theorem predict_isOk_iff (st : MLState) (o : MLOracle) (p : Dict) :
    isOkE (predict_player_projection st o p) = (getKey p "position").isSome := by
  unfold predict_player_projection
  cases hpos : getKey p "position" with
  | none => rfl
  | some posVal => rfl

/-- C1: whenever the registry has never been trained, or has no recorded
entry for the player's position, or the entry's trained-flag is false,
`predict_player_projection` returns the player's baseline projection as
the estimate, confidence 0.5 and model identifier "fallback". -/
theorem C1_untrained_fallback (st : MLState) (o : MLOracle) (p : Dict) (pos : String)
    (b : PyVal)
    (hpos : getKey p "position" = some (PyVal.str pos))
    (hbase : getKey p "base_proj" = some b)
    (hfb : st.is_trained = false ∨ getKey st.model_performance pos = none
      ∨ ∃ perf, getKey st.model_performance pos = some perf ∧ perf.trained = false) :
    Except.map (fun r => getKey r "ml_projection")
        (predict_player_projection st o p) = Except.ok (some b)
      ∧ Except.map (fun r => getKey r "confidence")
        (predict_player_projection st o p) = Except.ok (some (PyVal.num half))
      ∧ Except.map (fun r => getKey r "model_used")
        (predict_player_projection st o p) = Except.ok (some (PyVal.str "fallback")) := by
  rw [predict_eq_of_pos st o p (PyVal.str pos) hpos, predictPos_fallback st o p pos hfb]
  refine ⟨?_, ?_, ?_⟩
  · simp [Except.map, getKey_addPrediction_ml, getD, hbase]
  · simp [Except.map, getKey_addPrediction_conf]
  · simp [Except.map, getKey_addPrediction_used]

/-- C1 witness: a trained registry with no entry for position "K";
predicting a "K" player with baseline 7.0 yields estimate 7.0,
confidence 0.5, model "fallback". -/
theorem C1_untrained_fallback_witness :
    Except.map (fun r => getKey r "ml_projection")
        (predict_player_projection (MLState.mk [] [] true) trivOracle
          [("position", PyVal.str "K"), ("base_proj", PyVal.num 7)])
        = Except.ok (some (PyVal.num 7))
      ∧ Except.map (fun r => getKey r "confidence")
        (predict_player_projection (MLState.mk [] [] true) trivOracle
          [("position", PyVal.str "K"), ("base_proj", PyVal.num 7)])
        = Except.ok (some (PyVal.num half))
      ∧ Except.map (fun r => getKey r "model_used")
        (predict_player_projection (MLState.mk [] [] true) trivOracle
          [("position", PyVal.str "K"), ("base_proj", PyVal.num 7)])
        = Except.ok (some (PyVal.str "fallback")) :=
  C1_untrained_fallback (MLState.mk [] [] true) trivOracle
    [("position", PyVal.str "K"), ("base_proj", PyVal.num 7)] "K" (PyVal.num 7)
    (by decide) (by decide) (Or.inr (Or.inl (by decide)))

/-- C2: any exception on the model-prediction path (scaler transform or
model predict; the feature build itself cannot raise) is caught inside
`predict_player_projection`, which then returns the baseline projection,
confidence 0.5 and model identifier "error_fallback"; on every player
record carrying a `position` key the call returns normally, never
propagating an exception. -/
theorem C2_error_fallback (st : MLState) (o : MLOracle) (p : Dict) (posVal : PyVal)
    (hpos : getKey p "position" = some posVal) :
    isOkE (predict_player_projection st o p) = true
      ∧ (∀ pos perf e, posVal = PyVal.str pos → st.is_trained = true →
          getKey st.model_performance pos = some perf → perf.trained = true →
          o.scalerTransform pos (buildFeatures p) = Except.error e →
          predict_player_projection st o p = Except.ok
            (addPrediction p (getD p "base_proj" (PyVal.num 0)) half "error_fallback"))
      ∧ (∀ pos perf fs e, posVal = PyVal.str pos → st.is_trained = true →
          getKey st.model_performance pos = some perf → perf.trained = true →
          o.scalerTransform pos (buildFeatures p) = Except.ok fs →
          o.modelPredict pos fs = Except.error e →
          predict_player_projection st o p = Except.ok
            (addPrediction p (getD p "base_proj" (PyVal.num 0)) half "error_fallback")) := by
  refine ⟨?_, ?_, ?_⟩
  · rw [predict_isOk_iff, hpos]
    rfl
  · rintro pos perf e rfl hT hperf htr hsc
    rw [predict_eq_of_pos st o p _ hpos,
      predictPos_errfallback_scaler st o p pos perf e hT hperf htr hsc]
  · rintro pos perf fs e rfl hT hperf htr hsc hmp
    rw [predict_eq_of_pos st o p _ hpos,
      predictPos_errfallback_model st o p pos perf fs e hT hperf htr hsc hmp]

/-- A concrete trained registry holding one trained entry for "QB",
used by witnesses. -/
def wTrainedState : MLState :=
  MLState.mk [("QB", PerfRecord.mk (PyFloat.fin 1) half 50 true)] [] true

/-- A concrete "QB" player record used by witnesses. -/
def wQBPlayer : Dict := [("position", PyVal.str "QB"), ("base_proj", PyVal.num 20)]

/-- C2 witness: a trained "QB" registry whose scaler raises; the call
returns normally with the error fallback. -/
theorem C2_error_fallback_witness :
    isOkE (predict_player_projection wTrainedState failScalerOracle wQBPlayer) = true
      ∧ predict_player_projection wTrainedState failScalerOracle wQBPlayer = Except.ok
          (addPrediction wQBPlayer (getD wQBPlayer "base_proj" (PyVal.num 0)) half
            "error_fallback") :=
  ⟨(C2_error_fallback wTrainedState failScalerOracle wQBPlayer (PyVal.str "QB")
      (by decide)).1,
   (C2_error_fallback wTrainedState failScalerOracle wQBPlayer (PyVal.str "QB")
      (by decide)).2.1 "QB" (PerfRecord.mk (PyFloat.fin 1) half 50 true) () rfl rfl
      (by decide) rfl rfl⟩

/-- C5: with a trained entry recorded for the player's position and a
raise-free inference, the predictor builds the feature vector,
transforms it through the position's scaler, invokes the position's
model, and returns the model's estimate with confidence the recorded R²
and model identifier the estimator's class name; an untrained recorded
entry is never invoked for inference — its result is the structural
fallback whatever the estimator oracles do. -/
theorem C5_model_path (st : MLState) (o : MLOracle) (p : Dict) (pos : String)
    (perf : PerfRecord)
    (hpos : getKey p "position" = some (PyVal.str pos))
    (hT : st.is_trained = true)
    (hperf : getKey st.model_performance pos = some perf) :
    (∀ fs v, perf.trained = true →
        o.scalerTransform pos (buildFeatures p) = Except.ok fs →
        o.modelPredict pos fs = Except.ok v →
        predict_player_projection st o p =
          Except.ok (addPrediction p (PyVal.num v) perf.r2 (o.modelName pos)))
      ∧ (perf.trained = false → ∀ o2 : MLOracle,
          predict_player_projection st o2 p =
            Except.ok (addPrediction p (getD p "base_proj" (PyVal.num 0)) half
              "fallback")) := by
  constructor
  · intro fs v htr hsc hmp
    rw [predict_eq_of_pos st o p _ hpos,
      predictPos_model st o p pos perf fs v hT hperf htr hsc hmp]
  · intro htr o2
    rw [predict_eq_of_pos st o2 p _ hpos,
      predictPos_fallback st o2 p pos (Or.inr (Or.inr ⟨perf, hperf, htr⟩))]

/-- C5 witness: trained "QB" entry with a raise-free oracle returning
estimate 0; the model path result carries the recorded R² and the
estimator name. -/
theorem C5_model_path_witness :
    predict_player_projection wTrainedState trivOracle wQBPlayer =
      Except.ok (addPrediction wQBPlayer (PyVal.num 0)
        (PerfRecord.mk (PyFloat.fin 1) half 50 true).r2 (trivOracle.modelName "QB")) :=
  (C5_model_path wTrainedState trivOracle wQBPlayer "QB"
      (PerfRecord.mk (PyFloat.fin 1) half 50 true) (by decide) rfl (by decide)).1
    [] 0 rfl rfl rfl

/-- Helper for C6: every entry of the feature vector is either a numeric
default or a value present in the record. -/
theorem getD_num_or_present (p : Dict) (k : String) (q0 : ℚ) :
    (∃ q, getD p k (PyVal.num q0) = PyVal.num q)
      ∨ ∃ k2, getKey p k2 = some (getD p k (PyVal.num q0)) := by
  cases hk : getKey p k with
  | none => exact Or.inl ⟨q0, by simp [getD, hk]⟩
  | some v => exact Or.inr ⟨k, by simp [getD, hk]⟩

/-- C6: the feature vector is a total, pure function of the player
record: always length 8, fixed order, the documented default at every
missing field, the record's own value at every present field, and every
entry is either a numeric default or a value taken from the record. -/
theorem C6_feature_vector (p : Dict) :
    (buildFeatures p).length = 8
      ∧ (getKey p "base_proj" = none → (buildFeatures p).get? 0 = some (PyVal.num 0))
      ∧ (getKey p "weather_impact" = none → (buildFeatures p).get? 1 = some (PyVal.num 0))
      ∧ (getKey p "home_advantage" = none → (buildFeatures p).get? 2 = some (PyVal.num 0))
      ∧ (getKey p "spread" = none → (buildFeatures p).get? 3 = some (PyVal.num 0))
      ∧ (getKey p "over_under" = none → (buildFeatures p).get? 4 = some (PyVal.num 45))
      ∧ (getKey p "def_rank" = none → (buildFeatures p).get? 5 = some (PyVal.num 16))
      ∧ (getKey p "recent_form" = none → (buildFeatures p).get? 6 = some (PyVal.num half))
      ∧ (getKey p "snap_share" = none →
          (buildFeatures p).get? 7 = some (PyVal.num sevenTenths))
      ∧ (∀ v, getKey p "base_proj" = some v → (buildFeatures p).get? 0 = some v)
      ∧ (∀ v, getKey p "weather_impact" = some v → (buildFeatures p).get? 1 = some v)
      ∧ (∀ v, getKey p "home_advantage" = some v → (buildFeatures p).get? 2 = some v)
      ∧ (∀ v, getKey p "spread" = some v → (buildFeatures p).get? 3 = some v)
      ∧ (∀ v, getKey p "over_under" = some v → (buildFeatures p).get? 4 = some v)
      ∧ (∀ v, getKey p "def_rank" = some v → (buildFeatures p).get? 5 = some v)
      ∧ (∀ v, getKey p "recent_form" = some v → (buildFeatures p).get? 6 = some v)
      ∧ (∀ v, getKey p "snap_share" = some v → (buildFeatures p).get? 7 = some v)
      ∧ (∀ x, x ∈ buildFeatures p →
          (∃ q, x = PyVal.num q) ∨ ∃ k2, getKey p k2 = some x) := by
  refine ⟨rfl, ?_, ?_, ?_, ?_, ?_, ?_, ?_, ?_, ?_, ?_, ?_, ?_, ?_, ?_, ?_, ?_, ?_⟩
  all_goals try (intro h; simp [buildFeatures, getD, h])
  all_goals try (intro v h; simp [buildFeatures, getD, h])
  intro x hx
  simp only [buildFeatures, List.mem_cons, List.not_mem_nil, or_false] at hx
  rcases hx with h | h | h | h | h | h | h | h
  all_goals subst h
  · exact getD_num_or_present p "base_proj" 0
  · exact getD_num_or_present p "weather_impact" 0
  · exact getD_num_or_present p "home_advantage" 0
  · exact getD_num_or_present p "spread" 0
  · exact getD_num_or_present p "over_under" 45
  · exact getD_num_or_present p "def_rank" 16
  · exact getD_num_or_present p "recent_form" half
  · exact getD_num_or_present p "snap_share" sevenTenths

/-- C6 witness: a record with only a position gets the full default
vector. -/
theorem C6_feature_vector_witness :
    (buildFeatures [("position", PyVal.str "K")]).length = 8
      ∧ (buildFeatures [("position", PyVal.str "K")]).get? 4 = some (PyVal.num 45)
      ∧ (buildFeatures [("position", PyVal.str "K")]).get? 7 =
          some (PyVal.num sevenTenths) :=
  ⟨(C6_feature_vector [("position", PyVal.str "K")]).1,
   (C6_feature_vector [("position", PyVal.str "K")]).2.2.2.2.2.1 (by decide),
   (C6_feature_vector [("position", PyVal.str "K")]).2.2.2.2.2.2.2.2.1 (by decide)⟩

/-- C9: prediction is read-only on the registry: in the embedding the
method is a pure function of the state (no assignment to any
`self` attribute occurs in source lines 183–242), and its result depends
only on the performance records and the trained flag — so calling it
twice with identical input against a registry that is not retrained in
between yields identical output. -/
theorem C9_read_only (o : MLOracle) (p : Dict) (st st2 : MLState)
    (hperf : st.model_performance = st2.model_performance)
    (hT : st.is_trained = st2.is_trained) :
    predict_player_projection st o p = predict_player_projection st2 o p := by
  cases st
  cases st2
  cases hperf
  cases hT
  rfl

/-- C9 witness: two registry values agreeing on performance records and
trained flag (differing in feature importance) give the same output. -/
theorem C9_read_only_witness :
    predict_player_projection (MLState.mk [] [] false) trivOracle wQBPlayer =
      predict_player_projection (MLState.mk [] [("QB", [("base_proj", 1)])] false)
        trivOracle wQBPlayer :=
  C9_read_only trivOracle wQBPlayer (MLState.mk [] [] false)
    (MLState.mk [] [("QB", [("base_proj", 1)])] false) rfl rfl

/-- Helper: a key present in `setKey d k v` is `k` or was present
in `d`. -/
theorem isSome_getKey_setKey {α : Type} (d : List (String × α)) (k k2 : String) (v : α)
    (h : (getKey (setKey d k v) k2).isSome = true) :
    (getKey d k2).isSome = true ∨ k2 = k := by
  rw [getKey_setKey] at h
  by_cases hk : k = k2
  · exact Or.inr hk.symm
  · rw [if_neg hk] at h
    exact Or.inl h

/-- Helper: when the registry was never trained the predictor body
returns the structural fallback for every position value. -/
theorem predictPos_untrained (st : MLState) (o : MLOracle) (p : Dict) (posVal : PyVal)
    (hT : st.is_trained = false) :
    predictPos st o p posVal =
      addPrediction p (getD p "base_proj" (PyVal.num 0)) half "fallback" := by
  cases posVal with
  | num q => rfl
  | str pos => exact predictPos_fallback st o p pos (Or.inl hT)

/-- The C10 counterexample input: a record that already holds an
`ml_projection` key. -/
def overlapPlayer : Dict := [("position", PyVal.str "K"), ("ml_projection", PyVal.num 99)]

/-- C10 counterexample: on an input already holding an `ml_projection`
key, the returned dict does not keep that key's original value — the
update overwrites it (here with the fallback estimate 0), so the return
does not contain every input key with its original value. -/
theorem C10_counterexample :
    getKey overlapPlayer "ml_projection" = some (PyVal.num 99)
      ∧ Except.map (fun r => getKey r "ml_projection")
          (predict_player_projection (MLState.mk [] [] false) trivOracle overlapPlayer)
          = Except.ok (some (PyVal.num 0)) := by
  constructor
  · decide
  · rfl

/-- C10 (amended): the returned dict keeps every input key other than
the three prediction keys (`ml_projection`, `confidence`, `model_used`)
with its original value, carries all three prediction keys, and has no
key beyond the input's keys plus those three — on the model path, the
fallback path and the error-fallback path alike (the input itself is
never mutated: the embedding is pure).  If the input lacks `base_proj`,
the fallback estimate is 0. -/
theorem C10_frame (st : MLState) (o : MLOracle) (p r : Dict) (posVal : PyVal)
    (hpos : getKey p "position" = some posVal)
    (hr : predict_player_projection st o p = Except.ok r) :
    (∀ k, k ≠ "ml_projection" → k ≠ "confidence" → k ≠ "model_used" →
        getKey r k = getKey p k)
      ∧ (getKey r "ml_projection").isSome = true
      ∧ (getKey r "confidence").isSome = true
      ∧ (getKey r "model_used").isSome = true
      ∧ (∀ k, (getKey r k).isSome = true → (getKey p k).isSome = true
          ∨ k = "ml_projection" ∨ k = "confidence" ∨ k = "model_used")
      ∧ (st.is_trained = false → getKey p "base_proj" = none →
          getKey r "ml_projection" = some (PyVal.num 0)) := by
  rw [predict_eq_of_pos st o p posVal hpos] at hr
  have hr2 : r = predictPos st o p posVal := by
    injection hr.symm
  obtain ⟨proj, conf, mu, hshape⟩ := predictPos_shape st o p posVal
  rw [hr2, hshape]
  refine ⟨?_, ?_, ?_, ?_, ?_, ?_⟩
  · intro k h1 h2 h3
    exact getKey_addPrediction_other p proj conf mu k h1 h2 h3
  · rw [getKey_addPrediction_ml]
    rfl
  · rw [getKey_addPrediction_conf]
    rfl
  · rw [getKey_addPrediction_used]
    rfl
  · intro k hk
    simp only [addPrediction] at hk
    rcases isSome_getKey_setKey _ _ _ _ hk with hk2 | hk2
    · rcases isSome_getKey_setKey _ _ _ _ hk2 with hk3 | hk3
      · rcases isSome_getKey_setKey _ _ _ _ hk3 with hk4 | hk4
        · exact Or.inl hk4
        · exact Or.inr (Or.inl hk4)
      · exact Or.inr (Or.inr (Or.inl hk3))
    · exact Or.inr (Or.inr (Or.inr hk2))
  · intro hT hbase
    have h5 : addPrediction p proj conf mu =
        addPrediction p (getD p "base_proj" (PyVal.num 0)) half "fallback" :=
      hshape.symm.trans (predictPos_untrained st o p posVal hT)
    rw [h5, getKey_addPrediction_ml]
    simp [getD, hbase]

/-- The C10 witness input: a record with an extra pass-through key. -/
def wFramePlayer : Dict := [("position", PyVal.str "K"), ("team", PyVal.str "BAL")]

/-- C10 witness: on a fresh registry, the extra key passes through
unchanged, the prediction keys are present, and the missing baseline
falls back to 0. -/
theorem C10_frame_witness :
    getKey (predictPos (MLState.mk [] [] false) trivOracle wFramePlayer
        (PyVal.str "K")) "team" = getKey wFramePlayer "team"
      ∧ (getKey (predictPos (MLState.mk [] [] false) trivOracle wFramePlayer
          (PyVal.str "K")) "confidence").isSome = true
      ∧ getKey (predictPos (MLState.mk [] [] false) trivOracle wFramePlayer
          (PyVal.str "K")) "ml_projection" = some (PyVal.num 0) :=
  ⟨(C10_frame (MLState.mk [] [] false) trivOracle wFramePlayer _ (PyVal.str "K")
      (by decide) rfl).1 "team" (by decide) (by decide) (by decide),
   (C10_frame (MLState.mk [] [] false) trivOracle wFramePlayer _ (PyVal.str "K")
      (by decide) rfl).2.2.1,
   (C10_frame (MLState.mk [] [] false) trivOracle wFramePlayer _ (PyVal.str "K")
      (by decide) rfl).2.2.2.2.2 rfl (by decide)⟩

/-- What one pass of the training loop leaves recorded for position `q`:
skip (keeping the prior entry) below 10 rows, otherwise the fit outcome
— the success record or the failure sentinel record. -/
def trainSpec (df : List Row) (t : TrainOracle) (st : MLState) (q : String) :
    Option PerfRecord :=
  if (df.filter (fun r => r.position = q)).length < 10 then
    getKey st.model_performance q
  else
    match t.fit q (df.filter (fun r => r.position = q)) with
    | Except.ok (m, r2) =>
      some (PerfRecord.mk (PyFloat.fin m) r2 (df.filter (fun r => r.position = q)).length
        true)
    | Except.error _ =>
      some (PerfRecord.mk PyFloat.inf 0 (df.filter (fun r => r.position = q)).length false)

theorem getKey_trainPos_ne (df : List Row) (t : TrainOracle) (st : MLState)
    (p q : String) (h : q ≠ p) :
    getKey (trainPos df t st p).model_performance q = getKey st.model_performance q := by
  simp only [trainPos]
  split
  · rfl
  · split
    · split
      · simp [getKey_setKey, Ne.symm h]
      · simp [getKey_setKey, Ne.symm h]
    · simp [getKey_setKey, Ne.symm h]

theorem getKey_trainPos_self (df : List Row) (t : TrainOracle) (st : MLState)
    (p : String) :
    getKey (trainPos df t st p).model_performance p = trainSpec df t st p := by
  simp only [trainPos, trainSpec]
  split
  · rfl
  · split
    · split
      · simp [getKey_setKey]
      · simp [getKey_setKey]
    · simp [getKey_setKey]

theorem trainSpec_trainPos_ne (df : List Row) (t : TrainOracle) (st : MLState)
    (p q : String) (h : q ≠ p) :
    trainSpec df t (trainPos df t st p) q = trainSpec df t st q := by
  unfold trainSpec
  split
  · exact getKey_trainPos_ne df t st p q h
  · rfl

theorem getKey_foldl_trainPos_notmem (df : List Row) (t : TrainOracle) :
    ∀ (ps : List String) (st : MLState) (q : String), q ∉ ps →
      getKey ((ps.foldl (trainPos df t) st)).model_performance q =
        getKey st.model_performance q := by
  intro ps
  induction ps with
  | nil =>
    intro st q _
    rfl
  | cons p rest ih =>
    intro st q hq
    rw [List.foldl_cons,
      ih (trainPos df t st p) q (fun h2 => hq (List.mem_cons_of_mem p h2)),
      getKey_trainPos_ne df t st p q (fun h2 => hq (by rw [h2]; exact List.mem_cons_self p rest))]

theorem getKey_foldl_trainPos (df : List Row) (t : TrainOracle) :
    ∀ (ps : List String) (st : MLState) (q : String), q ∈ ps → ps.Nodup →
      getKey ((ps.foldl (trainPos df t) st)).model_performance q =
        trainSpec df t st q := by
  intro ps
  induction ps with
  | nil =>
    intro st q hq _
    exact absurd hq (List.not_mem_nil q)
  | cons p rest ih =>
    intro st q hq hnd
    rw [List.foldl_cons]
    rcases List.mem_cons.mp hq with hqp | hqr
    · subst hqp
      rw [getKey_foldl_trainPos_notmem df t rest (trainPos df t st q) q
        (List.nodup_cons.mp hnd).1, getKey_trainPos_self]
    · have hne : q ≠ p := by
        intro h2
        exact (List.nodup_cons.mp hnd).1 (h2 ▸ hqr)
      rw [ih (trainPos df t st p) q hqr (List.nodup_cons.mp hnd).2,
        trainSpec_trainPos_ne df t st p q hne]

/-- Master characterization of what `train_models` leaves recorded for
any position: the six loop positions get their own skip-or-fit outcome,
anything else keeps its prior entry. -/
theorem getKey_train_models (st : MLState) (df : List Row) (t : TrainOracle)
    (q : String) :
    getKey (train_models st df t).model_performance q =
      if q ∈ positionsList then trainSpec df t st q
      else getKey st.model_performance q := by
  by_cases hq : q ∈ positionsList
  · rw [if_pos hq]
    exact getKey_foldl_trainPos df t positionsList st q hq (by decide)
  · rw [if_neg hq]
    exact getKey_foldl_trainPos_notmem df t positionsList st q hq

/-- C7: an exception during one position's fit records the failure
sentinel (trained=false, MSE=+∞, R²=0, its sample count) for that
position; every other position's recorded outcome is unchanged by that
failure (swapping in any oracle that agrees on the other position gives
it the same record), and training always completes, setting the trained
flag. -/
theorem C7_fit_failure_isolated (st : MLState) (df : List Row) (t : TrainOracle)
    (p : String) (hp : p ∈ positionsList)
    (hlen : 10 ≤ (df.filter (fun r => r.position = p)).length)
    (hfail : t.fit p (df.filter (fun r => r.position = p)) = Except.error ()) :
    getKey (train_models st df t).model_performance p =
        some (PerfRecord.mk PyFloat.inf 0 (df.filter (fun r => r.position = p)).length
          false)
      ∧ (train_models st df t).is_trained = true
      ∧ ∀ (q : String) (t2 : TrainOracle), q ≠ p → t2.fit q = t.fit q →
          getKey (train_models st df t2).model_performance q =
            getKey (train_models st df t).model_performance q := by
  refine ⟨?_, rfl, ?_⟩
  · rw [getKey_train_models, if_pos hp]
    simp [trainSpec, Nat.not_lt.mpr hlen, hfail]
  · intro q t2 hne hfit
    rw [getKey_train_models, getKey_train_models]
    by_cases hq : q ∈ positionsList
    · rw [if_pos hq, if_pos hq]
      unfold trainSpec
      rw [hfit]
    · rw [if_neg hq, if_neg hq]

/-- A fit oracle that raises on every position, used by witnesses. -/
def failFitOracle : TrainOracle :=
  TrainOracle.mk (fun _ _ => Except.error ()) (fun _ _ => none)

/-- A fit oracle that succeeds everywhere with MSE 0 and R² 1, used by
witnesses. -/
def okFitOracle : TrainOracle :=
  TrainOracle.mk (fun _ _ => Except.ok (0, 1)) (fun _ _ => none)

/-- C7 witness: ten "QB" rows and a raising fit; the failure sentinel is
recorded and training completes. -/
theorem C7_fit_failure_isolated_witness :
    getKey (train_models (MLState.mk [] [] false)
        (List.replicate 10 (Row.mk "QB" [] 0)) failFitOracle).model_performance "QB" =
      some (PerfRecord.mk PyFloat.inf 0
        ((List.replicate 10 (Row.mk "QB" [] 0)).filter
          (fun r => r.position = "QB")).length false)
      ∧ (train_models (MLState.mk [] [] false)
          (List.replicate 10 (Row.mk "QB" [] 0)) failFitOracle).is_trained = true :=
  ⟨(C7_fit_failure_isolated (MLState.mk [] [] false)
      (List.replicate 10 (Row.mk "QB" [] 0)) failFitOracle "QB" (by decide) (by decide)
      rfl).1,
   (C7_fit_failure_isolated (MLState.mk [] [] false)
      (List.replicate 10 (Row.mk "QB" [] 0)) failFitOracle "QB" (by decide) (by decide)
      rfl).2.1⟩

/-- C8 counterexample: a fresh registry trained on five "K" rows records
nothing at all for "K" — in particular not the claimed sentinel record
(trained=false, MSE=+∞, R²=0, samples=5): the loop `continue`s without
writing an entry. -/
theorem C8_counterexample :
    getKey (train_models (MLState.mk [] [] false)
        (List.replicate 5 (Row.mk "K" [] 0)) okFitOracle).model_performance "K" = none
      ∧ getKey (train_models (MLState.mk [] [] false)
          (List.replicate 5 (Row.mk "K" [] 0)) okFitOracle).model_performance "K" ≠
        some (PerfRecord.mk PyFloat.inf 0 5 false) := by
  constructor
  · decide
  · decide

/-- C8 (amended): a position with fewer than 10 labeled rows is skipped:
`train_models` records nothing for it, so a registry with no prior entry
for that position still has none, and every subsequent prediction for
that position takes the fallback path (baseline estimate,
confidence 0.5). -/
theorem C8_insufficient_rows (st : MLState) (df : List Row) (t : TrainOracle)
    (pos : String) (o : MLOracle) (p : Dict)
    (hlen : (df.filter (fun r => r.position = pos)).length < 10)
    (hprior : getKey st.model_performance pos = none)
    (hpos : getKey p "position" = some (PyVal.str pos)) :
    getKey (train_models st df t).model_performance pos = none
      ∧ predict_player_projection (train_models st df t) o p =
          Except.ok (addPrediction p (getD p "base_proj" (PyVal.num 0)) half
            "fallback") := by
  have h1 : getKey (train_models st df t).model_performance pos = none := by
    rw [getKey_train_models]
    split_ifs with hq
    · simp [trainSpec, hlen, hprior]
    · exact hprior
  refine ⟨h1, ?_⟩
  rw [predict_eq_of_pos _ o p _ hpos,
    predictPos_fallback _ o p pos (Or.inr (Or.inl h1))]

/-- C8 witness: five "K" rows on a fresh registry, then a "K"
prediction: no record, fallback path with the baseline. -/
theorem C8_insufficient_rows_witness :
    getKey (train_models (MLState.mk [] [] false)
        (List.replicate 5 (Row.mk "K" [] 0)) failFitOracle).model_performance "K" = none
      ∧ predict_player_projection
          (train_models (MLState.mk [] [] false)
            (List.replicate 5 (Row.mk "K" [] 0)) failFitOracle) trivOracle
          [("position", PyVal.str "K"), ("base_proj", PyVal.num 7)] =
        Except.ok (addPrediction [("position", PyVal.str "K"), ("base_proj", PyVal.num 7)]
          (getD [("position", PyVal.str "K"), ("base_proj", PyVal.num 7)] "base_proj"
            (PyVal.num 0)) half "fallback") :=
  C8_insufficient_rows (MLState.mk [] [] false) (List.replicate 5 (Row.mk "K" [] 0))
    failFitOracle "K" trivOracle
    [("position", PyVal.str "K"), ("base_proj", PyVal.num 7)]
    (by decide) rfl (by decide)

theorem insertDesc_perm (x : Dict) (l : List Dict) : (insertDesc x l).Perm (x :: l) := by
  induction l with
  | nil => exact List.Perm.refl _
  | cons y ys ih =>
    simp only [insertDesc]
    split_ifs with h
    · exact List.Perm.refl _
    · exact (List.Perm.cons y ih).trans (List.Perm.swap x y ys)

theorem insertDesc_sorted (x : Dict) (l : List Dict)
    (h : l.Pairwise (fun a b => mlKey b ≤ mlKey a)) :
    (insertDesc x l).Pairwise (fun a b => mlKey b ≤ mlKey a) := by
  induction l with
  | nil => simp [insertDesc]
  | cons y ys ih =>
    rw [List.pairwise_cons] at h
    simp only [insertDesc]
    split_ifs with hlt
    · rw [List.pairwise_cons]
      refine ⟨?_, List.pairwise_cons.mpr h⟩
      intro z hz
      rcases List.mem_cons.mp hz with rfl | hz2
      · exact le_of_lt hlt
      · exact (h.1 z hz2).trans (le_of_lt hlt)
    · rw [List.pairwise_cons]
      refine ⟨?_, ih h.2⟩
      intro z hz
      rcases List.mem_cons.mp ((insertDesc_perm x ys).mem_iff.mp hz) with rfl | hz3
      · exact le_of_not_lt hlt
      · exact h.1 z hz3

theorem sortDescAux_perm (l : List Dict) :
    ∀ acc : List Dict, (l.foldl (fun acc2 x => insertDesc x acc2) acc).Perm (acc ++ l) := by
  induction l with
  | nil =>
    intro acc
    simp
  | cons x xs ih =>
    intro acc
    rw [List.foldl_cons]
    refine ((ih (insertDesc x acc)).trans ?_)
    refine (List.Perm.append_right xs (insertDesc_perm x acc)).trans ?_
    exact List.perm_middle.symm

theorem sortDesc_perm (l : List Dict) : (sortDesc l).Perm l := by
  simpa using sortDescAux_perm l []

theorem sortDescAux_sorted (l : List Dict) :
    ∀ acc : List Dict, acc.Pairwise (fun a b => mlKey b ≤ mlKey a) →
      (l.foldl (fun acc2 x => insertDesc x acc2) acc).Pairwise
        (fun a b => mlKey b ≤ mlKey a) := by
  induction l with
  | nil =>
    intro acc h
    exact h
  | cons x xs ih =>
    intro acc h
    rw [List.foldl_cons]
    exact ih (insertDesc x acc) (insertDesc_sorted x acc h)

theorem sortDesc_sorted (l : List Dict) :
    (sortDesc l).Pairwise (fun a b => mlKey b ≤ mlKey a) :=
  sortDescAux_sorted l [] List.Pairwise.nil

theorem filter_insertDesc (x : Dict) (l : List Dict) (q : ℚ)
    (hsort : l.Pairwise (fun a b => mlKey b ≤ mlKey a)) :
    (insertDesc x l).filter (fun p2 => decide (mlKey p2 = q)) =
      l.filter (fun p2 => decide (mlKey p2 = q)) ++
        [x].filter (fun p2 => decide (mlKey p2 = q)) := by
  induction l with
  | nil => simp [insertDesc]
  | cons y ys ih =>
    rw [List.pairwise_cons] at hsort
    simp only [insertDesc]
    split_ifs with hlt
    · by_cases hx : mlKey x = q
      · have hnil : (y :: ys).filter (fun p2 => decide (mlKey p2 = q)) = [] := by
          rw [List.filter_eq_nil_iff]
          intro a ha
          simp only [decide_eq_true_eq]
          rcases List.mem_cons.mp ha with rfl | ha2
          · exact ne_of_lt (hx ▸ hlt)
          · exact ne_of_lt (lt_of_le_of_lt (hsort.1 a ha2) (hx ▸ hlt))
        simp [List.filter_cons, hx, hnil]
      · simp [List.filter_cons, hx]
    · simp only [List.filter_cons]
      rw [ih hsort.2]
      by_cases hy : mlKey y = q <;> by_cases hx : mlKey x = q <;>
        simp [hy, hx, List.filter_cons]

theorem filter_foldl_insertDesc (q : ℚ) (l : List Dict) :
    ∀ acc : List Dict, acc.Pairwise (fun a b => mlKey b ≤ mlKey a) →
      (l.foldl (fun acc2 x => insertDesc x acc2) acc).filter
          (fun p2 => decide (mlKey p2 = q)) =
        acc.filter (fun p2 => decide (mlKey p2 = q)) ++
          l.filter (fun p2 => decide (mlKey p2 = q)) := by
  induction l with
  | nil =>
    intro acc h
    simp
  | cons x xs ih =>
    intro acc h
    rw [List.foldl_cons, ih (insertDesc x acc) (insertDesc_sorted x acc h),
      filter_insertDesc x acc q h, List.append_assoc]
    congr 1
    by_cases hx : mlKey x = q <;> simp [List.filter_cons, hx]

theorem sortDesc_stable (l : List Dict) (q : ℚ) :
    (sortDesc l).filter (fun p2 => decide (mlKey p2 = q)) =
      l.filter (fun p2 => decide (mlKey p2 = q)) := by
  simpa using filter_foldl_insertDesc q l [] List.Pairwise.nil

theorem fillOne_eq_specFill (lineup : Lineup) (p : Dict) (posVal : PyVal)
    (hpos : getKey p "position" = some posVal) :
    fillOne lineup p = Except.ok (specFill lineup p) := by
  simp only [fillOne, specFill, hpos, Option.some.injEq]
  by_cases h1 : posVal = PyVal.str "QB"
  · subst h1
    simp
    split_ifs <;> rfl
  · by_cases h2 : posVal = PyVal.str "RB"
    · subst h2
      simp
      split_ifs <;> rfl
    · by_cases h3 : posVal = PyVal.str "WR"
      · subst h3
        simp
        split_ifs <;> rfl
      · by_cases h4 : posVal = PyVal.str "TE"
        · subst h4
          simp
          split_ifs <;> rfl
        · simp [h1, h2, h3, h4]

theorem fillAll_eq_specFold (l : List Dict) :
    ∀ L : Lineup, (∀ e ∈ l, (getKey e "position").isSome = true) →
      fillAll L l = Except.ok (l.foldl specFill L) := by
  induction l with
  | nil =>
    intro L _
    rfl
  | cons p ps ih =>
    intro L h
    obtain ⟨posVal, hpos⟩ :=
      Option.isSome_iff_exists.mp (h p (List.mem_cons_self p ps))
    rw [List.foldl_cons]
    simp only [fillAll]
    rw [fillOne_eq_specFill L p posVal hpos]
    exact ih (specFill L p) (fun e he => h e (List.mem_cons_of_mem p he))

/-- The capacity bounds of each slot. -/
def capOK (L : Lineup) : Prop :=
  L.qb.length ≤ 1 ∧ L.rb.length ≤ 2 ∧ L.wr.length ≤ 2 ∧ L.te.length ≤ 1
    ∧ L.flex.length ≤ 1

theorem specFill_capOK (L : Lineup) (p : Dict) (h : capOK L) : capOK (specFill L p) := by
  obtain ⟨h1, h2, h3, h4, h5⟩ := h
  unfold specFill capOK
  split_ifs <;>
    (try simp only [List.length_append, List.length_singleton]) <;> omega

theorem foldl_specFill_capOK (l : List Dict) :
    ∀ L : Lineup, capOK L → capOK (l.foldl specFill L) := by
  induction l with
  | nil =>
    intro L h
    exact h
  | cons p ps ih =>
    intro L h
    rw [List.foldl_cons]
    exact ih _ (specFill_capOK L p h)

theorem specFill_count (L : Lineup) (p x : Dict) :
    (assigned (specFill L p)).count x ≤ (assigned L).count x + List.count x [p] := by
  unfold specFill assigned
  split_ifs <;> (try simp only [List.count_append]) <;> omega

theorem foldl_specFill_count (l : List Dict) :
    ∀ (L : Lineup) (x : Dict),
      (assigned (l.foldl specFill L)).count x ≤ (assigned L).count x + l.count x := by
  induction l with
  | nil =>
    intro L x
    simp
  | cons p ps ih =>
    intro L x
    rw [List.foldl_cons]
    have hstep := specFill_count L p x
    have hrest := ih (specFill L p) x
    rw [show (p :: ps) = [p] ++ ps from rfl, List.count_append]
    omega

theorem predict_ok_pos (st : MLState) (o : MLOracle) (p r : Dict)
    (h : predict_player_projection st o p = Except.ok r) :
    (getKey r "position").isSome = true := by
  unfold predict_player_projection at h
  cases hpos : getKey p "position" with
  | none =>
    rw [hpos] at h
    exact Except.noConfusion h
  | some posVal =>
    rw [hpos] at h
    obtain ⟨proj, conf, mu, hs⟩ := predictPos_shape st o p posVal
    have h2 : predictPos st o p posVal = r := by
      injection h
    rw [← h2, hs,
      getKey_addPrediction_other p proj conf mu "position" (by decide) (by decide)
        (by decide), hpos]
    rfl

theorem enhanceAll_mem_pos (st : MLState) (o : MLOracle) :
    ∀ (players enhanced : List Dict),
      enhanceAll st o players = Except.ok enhanced →
      ∀ e ∈ enhanced, (getKey e "position").isSome = true := by
  intro players
  induction players with
  | nil =>
    intro enhanced h e he
    simp only [enhanceAll] at h
    injection h with h2
    rw [← h2] at he
    exact absurd he (List.not_mem_nil e)
  | cons p ps ih =>
    intro enhanced h e he
    simp only [enhanceAll] at h
    cases hp : predict_player_projection st o p with
    | error err =>
      rw [hp] at h
      exact Except.noConfusion h
    | ok r =>
      rw [hp] at h
      cases hps : enhanceAll st o ps with
      | error err =>
        rw [hps] at h
        exact Except.noConfusion h
      | ok es =>
        rw [hps] at h
        injection h with h2
        rw [← h2] at he
        rcases List.mem_cons.mp he with rfl | he2
        · exact predict_ok_pos st o p e hp
        · exact ih es hps e he2

/-- Inversion of a successful `create_ml_enhanced_lineup` call into its
pipeline stages. -/
theorem create_ok_inv (st : MLState) (df : List Row) (t : TrainOracle) (o : MLOracle)
    (players : List Dict) (res : LineupResult)
    (hres : create_ml_enhanced_lineup st df t o players = Except.ok res) :
    ∃ enhanced L,
      enhanceAll (if st.is_trained then st else train_models st df t) o players
          = Except.ok enhanced
        ∧ fillAll emptyLineup (sortDesc enhanced) = Except.ok L
        ∧ res = LineupResult.mk L (totalPoints L)
            (if st.is_trained then st else train_models st df t).model_performance
            (if st.is_trained then st else train_models st df t).feature_importance
            (sortDesc enhanced) := by
  simp only [create_ml_enhanced_lineup] at hres
  cases henh : enhanceAll (if st.is_trained then st else train_models st df t) o players with
  | error e =>
    rw [henh] at hres
    exact Except.noConfusion hres
  | ok enhanced =>
    rw [henh] at hres
    simp only [] at hres
    cases hfill : fillAll emptyLineup (sortDesc enhanced) with
    | error e =>
      rw [hfill] at hres
      exact Except.noConfusion hres
    | ok L =>
      rw [hfill] at hres
      refine ⟨enhanced, L, rfl, hfill, ?_⟩
      injection hres with h2
      exact h2.symm

/-- Scenario players (§8 of the specification): one QB at 20, three RBs
at 18, 16 and 9, one WR at 12, one TE at 10. -/
def scenQB : Dict :=
  [("name", PyVal.str "QB1"), ("position", PyVal.str "QB"), ("base_proj", PyVal.num 20)]

def scenRB1 : Dict :=
  [("name", PyVal.str "RB1"), ("position", PyVal.str "RB"), ("base_proj", PyVal.num 18)]

def scenRB2 : Dict :=
  [("name", PyVal.str "RB2"), ("position", PyVal.str "RB"), ("base_proj", PyVal.num 16)]

def scenRB3 : Dict :=
  [("name", PyVal.str "RB3"), ("position", PyVal.str "RB"), ("base_proj", PyVal.num 9)]

def scenWR1 : Dict :=
  [("name", PyVal.str "WR1"), ("position", PyVal.str "WR"), ("base_proj", PyVal.num 12)]

def scenTE1 : Dict :=
  [("name", PyVal.str "TE1"), ("position", PyVal.str "TE"), ("base_proj", PyVal.num 10)]

def scenarioPlayers : List Dict := [scenQB, scenRB1, scenRB2, scenRB3, scenWR1, scenTE1]

/-- A scenario player after fallback enhancement with estimate `k`. -/
def scenEnh (p : Dict) (k : ℚ) : Dict :=
  p ++ [("ml_projection", PyVal.num k), ("confidence", PyVal.num half),
    ("model_used", PyVal.str "fallback")]

/-- A trained registry with no recorded entries: every scenario player
takes the fallback path, so each estimate equals its baseline. -/
def scenarioState : MLState := MLState.mk [] [] true

def scenarioEnhanced : List Dict :=
  [scenEnh scenQB 20, scenEnh scenRB1 18, scenEnh scenRB2 16, scenEnh scenRB3 9,
   scenEnh scenWR1 12, scenEnh scenTE1 10]

def scenarioSorted : List Dict :=
  [scenEnh scenQB 20, scenEnh scenRB1 18, scenEnh scenRB2 16, scenEnh scenWR1 12,
   scenEnh scenTE1 10, scenEnh scenRB3 9]

def scenarioLineup : Lineup :=
  Lineup.mk [scenEnh scenQB 20] [scenEnh scenRB1 18, scenEnh scenRB2 16]
    [scenEnh scenWR1 12] [scenEnh scenTE1 10] [scenEnh scenRB3 9]

def scenarioResult : LineupResult :=
  LineupResult.mk scenarioLineup (totalPoints scenarioLineup) [] [] scenarioSorted

theorem foldl_add_mlKey (l : List Dict) :
    ∀ a : ℚ, l.foldl (fun acc p2 => acc + mlKey p2) a = a + (l.map mlKey).sum := by
  induction l with
  | nil =>
    intro a
    simp
  | cons x xs ih =>
    intro a
    rw [List.foldl_cons, ih (a + mlKey x)]
    simp [add_assoc]

theorem totalPoints_eq (L : Lineup) :
    totalPoints L = ((assigned L).map mlKey).sum := by
  unfold totalPoints
  rw [foldl_add_mlKey]
  simp

/-- C3: every lineup the assembler produces respects the fixed slot
capacities (QB ≤ 1, RB ≤ 2, WR ≤ 2, TE ≤ 1, FLEX ≤ 1), assigns at most
7 = 1+2+2+1+1 players in total, and assigns each player occurrence to
at most one slot (no occurrence of a player is counted more often
across all slots than it occurs in the enhanced player list). -/
theorem C3_capacity (st : MLState) (df : List Row) (t : TrainOracle) (o : MLOracle)
    (players : List Dict) (res : LineupResult)
    (hres : create_ml_enhanced_lineup st df t o players = Except.ok res) :
    res.optimal_lineup.qb.length ≤ 1
      ∧ res.optimal_lineup.rb.length ≤ 2
      ∧ res.optimal_lineup.wr.length ≤ 2
      ∧ res.optimal_lineup.te.length ≤ 1
      ∧ res.optimal_lineup.flex.length ≤ 1
      ∧ (assigned res.optimal_lineup).length ≤ 7
      ∧ ∀ x : Dict,
          (assigned res.optimal_lineup).count x ≤ res.enhanced_players.count x := by
  obtain ⟨enhanced, L, henh, hfill, hre⟩ := create_ok_inv st df t o players res hres
  have hmem : ∀ e ∈ sortDesc enhanced, (getKey e "position").isSome = true := by
    intro e he
    exact enhanceAll_mem_pos _ o players enhanced henh e
      ((sortDesc_perm enhanced).mem_iff.mp he)
  have hspec := fillAll_eq_specFold (sortDesc enhanced) emptyLineup hmem
  have hL : L = (sortDesc enhanced).foldl specFill emptyLineup := by
    rw [hfill] at hspec
    injection hspec
  have hcap : capOK L := by
    rw [hL]
    exact foldl_specFill_capOK (sortDesc enhanced) emptyLineup
      (by simp [capOK, emptyLineup])
  obtain ⟨h1, h2, h3, h4, h5⟩ := hcap
  have hcnt : ∀ x : Dict, (assigned L).count x ≤ (sortDesc enhanced).count x := by
    intro x
    have hc := foldl_specFill_count (sortDesc enhanced) emptyLineup x
    rw [← hL] at hc
    simpa [assigned, emptyLineup] using hc
  rw [hre]
  refine ⟨h1, h2, h3, h4, h5, ?_, ?_⟩
  · simp only [assigned, List.length_append]
    omega
  · intro x
    exact hcnt x

/-- C3 witness: the six-player scenario lineup respects all bounds. -/
theorem C3_capacity_witness :
    (assigned scenarioLineup).length ≤ 7 ∧ scenarioLineup.rb.length ≤ 2 :=
  ⟨(C3_capacity scenarioState [] failFitOracle trivOracle scenarioPlayers
      scenarioResult rfl).2.2.2.2.2.1,
   (C3_capacity scenarioState [] failFitOracle trivOracle scenarioPlayers
      scenarioResult rfl).2.1⟩

/-- C4: the assembler stably sorts the enhanced players descending by
estimate (the returned enhanced list is a permutation of the enhancement
output, is sorted nonincreasingly, and keeps input order within equal
estimates), fills slots in a single forward pass assigning each player
to the first eligible slot with free capacity per the fixed priority
table (the `specFill` rule), and returns as total the sum of the
assigned players' estimates. -/
theorem C4_sorted_greedy (st : MLState) (df : List Row) (t : TrainOracle) (o : MLOracle)
    (players enhanced : List Dict) (res : LineupResult)
    (henh : enhanceAll (if st.is_trained then st else train_models st df t) o players
      = Except.ok enhanced)
    (hres : create_ml_enhanced_lineup st df t o players = Except.ok res) :
    List.Pairwise (fun a b => mlKey b ≤ mlKey a) res.enhanced_players
      ∧ res.enhanced_players.Perm enhanced
      ∧ (∀ q : ℚ, res.enhanced_players.filter (fun x => decide (mlKey x = q)) =
          enhanced.filter (fun x => decide (mlKey x = q)))
      ∧ res.optimal_lineup = res.enhanced_players.foldl specFill emptyLineup
      ∧ res.total_projected_points = ((assigned res.optimal_lineup).map mlKey).sum := by
  obtain ⟨enhanced2, L, henh2, hfill, hre⟩ := create_ok_inv st df t o players res hres
  have he : enhanced2 = enhanced := by
    rw [henh2] at henh
    injection henh
  subst he
  have hmem : ∀ e ∈ sortDesc enhanced2, (getKey e "position").isSome = true := by
    intro e hme
    exact enhanceAll_mem_pos _ o players enhanced2 henh2 e
      ((sortDesc_perm enhanced2).mem_iff.mp hme)
  have hspec := fillAll_eq_specFold (sortDesc enhanced2) emptyLineup hmem
  have hL : L = (sortDesc enhanced2).foldl specFill emptyLineup := by
    rw [hfill] at hspec
    injection hspec
  rw [hre]
  refine ⟨sortDesc_sorted enhanced2, sortDesc_perm enhanced2,
    fun q => sortDesc_stable enhanced2 q, hL, ?_⟩
  exact totalPoints_eq L

/-- C4 witness: the six-player scenario — one QB (estimate 20), three
RBs (18, 16, 9), one WR (12), one TE (10).  The two best RBs fill the
RB slot, the third RB the flex slot, the WR, TE and QB their slots; all
six are assigned and the total is 85, the sum of all six estimates. -/
theorem C4_sorted_greedy_witness :
    List.Pairwise (fun a b => mlKey b ≤ mlKey a) scenarioSorted
      ∧ (assigned scenarioLineup).map (fun p2 => getKey p2 "name") =
        [some (PyVal.str "QB1"), some (PyVal.str "RB1"), some (PyVal.str "RB2"),
         some (PyVal.str "WR1"), some (PyVal.str "TE1"), some (PyVal.str "RB3")]
      ∧ (assigned scenarioLineup).length = 6
      ∧ totalPoints scenarioLineup = 85 := by
  refine ⟨?_, rfl, rfl, ?_⟩
  · exact (C4_sorted_greedy scenarioState [] failFitOracle trivOracle scenarioPlayers
      scenarioEnhanced scenarioResult rfl rfl).1
  · show (0 : ℚ) + 20 + 18 + 16 + 12 + 10 + 9 = 85
    norm_num

end FFA
